import Mathlib

/-!
Verification of the CSS-in-JS wrapping proxy of the monaco-css fork.

The development shallowly embeds the document-wrapping worker
(`CSSInJSWorker` in `cssWorker.ts`) and the coordinate-translating
editor adapters (`languageFeatures.ts`).  Machine numbers of the
JavaScript source are modelled as `Int`; nullable values as `Option`;
a thrown `TypeError` as `Except.error`.  Line splitting of a document
is modelled by the executable `splitLines` over `List Char`.
-/

set_option maxHeartbeats 1000000

/-! ## Coordinate types

`Monaco.Position` / `Monaco.Range` are the host editor's 1-based
line/column shapes (from `monaco-editor-core`); `CssService.Position` /
`CssService.Range` are the underlying analyzer's zero-based
line/character shapes (from `vscode-css-languageservice`). -/

namespace Monaco

structure Position where
  lineNumber : Int
  column : Int
deriving DecidableEq, Repr

structure Range where
  startLineNumber : Int
  startColumn : Int
  endLineNumber : Int
  endColumn : Int
deriving DecidableEq, Repr

end Monaco

namespace CssService

structure Position where
  line : Int
  character : Int
deriving DecidableEq, Repr

structure Range where
  start : Position
  «end» : Position
deriving DecidableEq, Repr

/-- A diagnostic code is either a number or a string in the LSP shape. -/
inductive DiagnosticCode where
  | num : Int → DiagnosticCode
  | str : String → DiagnosticCode
deriving DecidableEq, Repr

/-- An LSP diagnostic as the adapter reads it; `severity` uses the LSP
codes Error = 1, Warning = 2, Information = 3, Hint = 4. -/
structure Diagnostic where
  range : Range
  severity : Option Int
  code : Option DiagnosticCode
  message : String
  source : Option String
deriving DecidableEq, Repr

end CssService

/-! ## Line splitting

Executable model of splitting a character sequence at newline
characters; `splitLines cs` always returns one entry per line, with a
final empty entry when `cs` ends in a newline (same convention as
JavaScript `split("\n")`). -/

def splitLines : List Char → List (List Char)
  | [] => [[]]
  | c :: rest =>
    if c = '\n' then [] :: splitLines rest
    else
      match splitLines rest with
      | [] => [[c]]
      | l :: ls => (c :: l) :: ls

/-! ## The document wrapper (`CSSInJSWorker._getTextDocument`)

The worker builds the analyzer's document from the template literal

  `.this-element {` newline tab tab space  VALUE  newline tab tab `}`

so the wrapped text is a constant opening string, the raw text
character-for-character, and a constant closing string. -/

def wrapOpen : String := ".this-element \x7b\n\t\t "

def wrapClose : String := "\n\t\t\x7d"

namespace CSSInJSWorker

/-- Snapshot of an `editor.IReadOnlyModel` as far as the worker reads it:
`getValue()`, `getVersionId()` and (for the diagnostics pass) `getModeId()`. -/
structure Model where
  value : String
  versionId : Int
  modeId : String
deriving DecidableEq, Repr

/-- Result of `cssService.TextDocument.create` (never null). -/
structure TextDocument where
  uri : String
  languageId : String
  version : Int
  text : String
deriving DecidableEq, Repr

/-- A JavaScript runtime error; `_getTextDocument` can only raise a
`TypeError` (reading `getVersionId` of a missing model). -/
inductive JsError where
  | typeError : JsError
deriving DecidableEq, Repr

/-- The template literal of `_getTextDocument`:
`.this-element \x7b` NL TAB TAB SP `${...}` NL TAB TAB `\x7d`. -/
def wrapValue (rawText : String) : String :=
  wrapOpen ++ rawText ++ wrapClose

/-- The interpolated expression `model?.getValue() || ''`: a missing
model contributes the empty string, and a falsy (empty) value is
replaced by the empty string. -/
def modelText : Option Model → String
  | some m => if m.value = "" then "" else m.value
  | none => ""

/-- `CSSInJSWorker._getTextDocument`.  The wrapped value is computed
first; then `model.getVersionId()` is read without an optional chain,
so a missing model raises a `TypeError` before any document is built. -/
def _getTextDocument (uri : String) (model : Option Model) :
    Except JsError TextDocument :=
  let value := wrapValue (modelText model)
  match model with
  | none => .error .typeError
  | some m =>
    .ok { uri := uri, languageId := "emotionCss", version := m.versionId, text := value }

/-- `CSSInJSWorker.doValidation`, with the underlying analyzer's
`parseStylesheet` + `doValidation` abstracted as `validate`.  The
source guards `if (document)`, but `TextDocument.create` never returns
null, so the guard is always taken and the `return []` branch is dead;
a missing model instead propagates the `TypeError` as a rejection. -/
def doValidation (validate : TextDocument → List CssService.Diagnostic)
    (uri : String) (model : Option Model) :
    Except JsError (List CssService.Diagnostic) :=
  match _getTextDocument uri model with
  | .error e => .error e
  | .ok document => .ok (validate document)

/-- `CSSInJSWorker.mapPos`: the worker's caller-to-wrapped position
mapping is the identity. -/
def mapPos (position : CssService.Position) : CssService.Position :=
  position

/-- `CSSInJSWorker.mapRange`: maps both ends with `mapPos`. -/
def mapRange (range : CssService.Range) : CssService.Range :=
  { start := mapPos range.start
    «end» := mapPos range.«end» }

end CSSInJSWorker

/-! ## Position translation helpers of `languageFeatures.ts` -/

/-- `fromPosition`: editor position (1-based line, 1-based column) to
analyzer position; only the column is converted to zero-based. -/
def fromPosition (position : Monaco.Position) : CssService.Position :=
  { character := position.column - 1, line := position.lineNumber }

/-- `fromRange`: editor range to analyzer range, same asymmetry. -/
def fromRange (range : Monaco.Range) : CssService.Range :=
  { start := { line := range.startLineNumber, character := range.startColumn - 1 }
    «end» := { line := range.endLineNumber, character := range.endColumn - 1 } }

/-- `toRange`: analyzer range back to an editor `Range`; only the
characters are converted back to 1-based columns. -/
def toRange (range : CssService.Range) : Monaco.Range :=
  { startLineNumber := range.start.line
    startColumn := range.start.character + 1
    endLineNumber := range.«end».line
    endColumn := range.«end».character + 1 }

/-- The null guard `if (!range) return void 0` around `toRange`. -/
def toRangeOpt (range : Option CssService.Range) : Option Monaco.Range :=
  range.map toRange

/-! ## Diagnostics adapter (`DiagnosticsAdapter`, `toDiagnostics`) -/

/-- The injected `editor.severities` record (`MarkerSeverity` values of
the host editor). -/
structure MarkerSeverities where
  Error : Int
  Warning : Int
  Info : Int
  Hint : Int
deriving DecidableEq, Repr

/-- `toSeverity`: switch over the LSP severity codes with `Info` as the
default branch. -/
def toSeverity (lsSeverity : Int) (severities : MarkerSeverities) : Int :=
  if lsSeverity = 1 then severities.Error
  else if lsSeverity = 2 then severities.Warning
  else if lsSeverity = 3 then severities.Info
  else if lsSeverity = 4 then severities.Hint
  else severities.Info

/-- An `editor.IMarkerData` as `toDiagnostics` builds it. -/
structure IMarkerData where
  severity : Int
  startLineNumber : Int
  startColumn : Int
  endLineNumber : Int
  endColumn : Int
  message : String
  code : Option String
  source : Option String
deriving DecidableEq, Repr

/-- The expression `typeof diag.code === 'number' ? String(diag.code) : diag.code`. -/
def codeToString : Option CssService.DiagnosticCode → Option String
  | some (.num n) => some (toString n)
  | some (.str s) => some s
  | none => none

/-- `toDiagnostics`: every line and character of the analyzer's
(wrapped-space, zero-based) diagnostic range is converted to the
editor's 1-based convention by adding one; no wrapper offset is
subtracted anywhere. -/
def toDiagnostics (diag : CssService.Diagnostic) (severities : MarkerSeverities) :
    IMarkerData :=
  { severity := toSeverity (diag.severity.getD 0) severities
    startLineNumber := diag.range.start.line + 1
    startColumn := diag.range.start.character + 1
    endLineNumber := diag.range.«end».line + 1
    endColumn := diag.range.«end».character + 1
    message := diag.message
    code := codeToString diag.code
    source := diag.source }

/-- The publication step at the end of `DiagnosticsAdapter._doValidate`:
markers are handed to `setModelMarkers` (`some markers`) only when the
model still exists and its mode id still equals the adapter's language
id; otherwise publication is skipped (`none`). -/
def publishMarkers (languageId : String) (markers : List IMarkerData)
    (model : Option CSSInJSWorker.Model) : Option (List IMarkerData) :=
  match model with
  | some m => if m.modeId = languageId then some markers else none
  | none => none

/-! ## Debounce model (`DiagnosticsAdapter.onModelAdd`)

The content-change listener runs `clearTimeout(handle)` and then
`handle = setTimeout(validate, 500)`.  The model below processes the
strictly increasing times of the content-change events: a pending
timer whose due time lies strictly before the next event has already
fired; otherwise the event's `clearTimeout` cancels it and a new timer
is scheduled 500 ms after the event. -/

def validationDelay : Nat := 500

/-- One content-change event at time `t`: returns the validations fired
before `t` and the new pending timer. -/
def debounceStep (pending : Option Nat) (t : Nat) : List Nat × Option Nat :=
  match pending with
  | some due =>
    if due < t then ([due], some (t + validationDelay))
    else ([], some (t + validationDelay))
  | none => ([], some (t + validationDelay))

/-- Process all events, then let the surviving timer fire. -/
def debounceGo (pending : Option Nat) : List Nat → List Nat
  | [] =>
    match pending with
    | some due => [due]
    | none => []
  | t :: rest =>
    (debounceStep pending t).1 ++ debounceGo (debounceStep pending t).2 rest

/-- The validation times produced by a sequence of content-change
events (strictly increasing times), starting with no pending timer. -/
def debounceRun (edits : List Nat) : List Nat :=
  debounceGo none edits

/-! ## Feature result shapes

Analyzer-side (`vscode-css-languageservice` / LSP) result types, with
exactly the fields the adapters read, and the host-editor-side shapes
the adapters build. -/

namespace CssService

/-- An LSP `TextEdit`. -/
structure TextEdit where
  range : Range
  newText : String
deriving DecidableEq, Repr

/-- `entry.textEdit` is either a plain `TextEdit` or an
`InsertReplaceEdit`; `isInsertReplaceEdit` distinguishes them by the
presence of the `insert` and `replace` fields. -/
inductive CompletionTextEdit where
  | edit : Range → String → CompletionTextEdit
  | insertReplace : Range → Range → String → CompletionTextEdit
deriving DecidableEq, Repr

/-- `string | MarkupContent` documentation, passed through unchanged. -/
inductive Documentation where
  | str : String → Documentation
  | markup : String → String → Documentation
deriving DecidableEq, Repr

/-- An LSP completion entry as the adapter reads it.  Numeric `kind`
uses the LSP `CompletionItemKind` codes 1–18; `insertTextFormat` uses
PlainText = 1, Snippet = 2. -/
structure CompletionItem where
  label : String
  insertText : Option String
  sortText : Option String
  filterText : Option String
  documentation : Option Documentation
  detail : Option String
  kind : Option Int
  textEdit : Option CompletionTextEdit
  additionalTextEdits : Option (List TextEdit)
  insertTextFormat : Option Int
deriving DecidableEq, Repr

structure CompletionList where
  isIncomplete : Bool
  items : List CompletionItem
deriving DecidableEq, Repr

/-- An LSP `MarkedString`: a plain string or a fenced code block. -/
inductive MarkedString where
  | plain : String → MarkedString
  | code : String → String → MarkedString
deriving DecidableEq, Repr

/-- A single hover entry: `MarkupContent` (with a `kind` field, as
`isMarkupContent` tests) or a `MarkedString`. -/
inductive HoverEntry where
  | markup : String → String → HoverEntry
  | marked : MarkedString → HoverEntry
deriving DecidableEq, Repr

/-- `Hover.contents`: one entry or an array of marked strings. -/
inductive HoverContents where
  | single : HoverEntry → HoverContents
  | array : List MarkedString → HoverContents
deriving DecidableEq, Repr

structure Hover where
  contents : Option HoverContents
  range : Option Range
deriving DecidableEq, Repr

/-- `kind` uses the LSP codes Text = 1, Read = 2, Write = 3. -/
structure DocumentHighlight where
  range : Range
  kind : Option Int
deriving DecidableEq, Repr

structure Location where
  uri : String
  range : Range
deriving DecidableEq, Repr

/-- An LSP `WorkspaceEdit`; `changes` is a uri-keyed object, modelled
as an association list. -/
structure WorkspaceEdit where
  changes : Option (List (String × List TextEdit))
deriving DecidableEq, Repr

/-- An LSP `SymbolInformation`; numeric `kind` uses the LSP
`SymbolKind` codes 1–18. -/
structure SymbolInformation where
  name : String
  kind : Int
  containerName : Option String
  location : Location
deriving DecidableEq, Repr

/-- An LSP `Color`; the float components are only passed through, so
they are modelled as rationals. -/
structure Color where
  red : Rat
  green : Rat
  blue : Rat
  alpha : Rat
deriving DecidableEq, Repr

structure ColorInformation where
  range : Range
  color : Color
deriving DecidableEq, Repr

structure ColorPresentation where
  label : String
  textEdit : Option TextEdit
  additionalTextEdits : Option (List TextEdit)
deriving DecidableEq, Repr

/-- An LSP folding range, restricted to the fields the adapter reads;
`kind` is one of the strings `comment`, `imports`, `region`. -/
structure FoldingRange where
  startLine : Int
  endLine : Int
  kind : Option String
deriving DecidableEq, Repr

/-- An LSP selection range with its optional parent chain. -/
inductive SelectionRange where
  | mk : Range → Option SelectionRange → SelectionRange

end CssService

/-- A host-editor single edit operation, as `toTextEdit` builds it. -/
structure ISingleEditOperation where
  range : Monaco.Range
  text : String
deriving DecidableEq, Repr

/-- `toTextEdit` on a present edit (its null guard is handled by the
callers' `Option.map`). -/
def toTextEdit (textEdit : CssService.TextEdit) : ISingleEditOperation :=
  { range := toRange textEdit.range, text := textEdit.newText }

/-- The injected `editorInjection.itemKinds` record of host-editor
`CompletionItemKind` values. -/
structure ItemKinds where
  Text : Int
  Method : Int
  Function : Int
  Constructor : Int
  Field : Int
  Variable : Int
  Class : Int
  Interface : Int
  Module : Int
  Property : Int
  Unit : Int
  Value : Int
  Enum : Int
  Keyword : Int
  Snippet : Int
  Color : Int
  File : Int
  Reference : Int
deriving DecidableEq, Repr

/-- `toCompletionItemKind`: switch over the LSP `CompletionItemKind`
codes, defaulting to `Property` (also for an absent kind). -/
def toCompletionItemKind (kind : Option Int) (mItemKind : ItemKinds) : Int :=
  match kind with
  | none => mItemKind.Property
  | some k =>
    if k = 1 then mItemKind.Text
    else if k = 2 then mItemKind.Method
    else if k = 3 then mItemKind.Function
    else if k = 4 then mItemKind.Constructor
    else if k = 5 then mItemKind.Field
    else if k = 6 then mItemKind.Variable
    else if k = 7 then mItemKind.Class
    else if k = 8 then mItemKind.Interface
    else if k = 9 then mItemKind.Module
    else if k = 10 then mItemKind.Property
    else if k = 11 then mItemKind.Unit
    else if k = 12 then mItemKind.Value
    else if k = 13 then mItemKind.Enum
    else if k = 14 then mItemKind.Keyword
    else if k = 15 then mItemKind.Snippet
    else if k = 16 then mItemKind.Color
    else if k = 17 then mItemKind.File
    else if k = 18 then mItemKind.Reference
    else mItemKind.Property

/-- A completion item's `range` field: a single range or an
insert/replace pair. -/
inductive CompletionItemRange where
  | single : Monaco.Range → CompletionItemRange
  | insertReplace : Monaco.Range → Monaco.Range → CompletionItemRange
deriving DecidableEq, Repr

/-- A host-editor completion item as the adapter builds it. -/
structure MCompletionItem where
  label : String
  insertText : String
  sortText : Option String
  filterText : Option String
  documentation : Option CssService.Documentation
  detail : Option String
  range : CompletionItemRange
  kind : Int
  insertTextRules : Option Int
  additionalTextEdits : Option (List ISingleEditOperation)
deriving DecidableEq, Repr

structure MCompletionList where
  isIncomplete : Bool
  suggestions : List MCompletionItem
deriving DecidableEq, Repr

/-- The JavaScript expression `a || b` on strings (empty string is falsy). -/
def jsOrElse (a : Option String) (b : String) : String :=
  match a with
  | some s => if s = "" then b else s
  | none => b

/-- The body of `CompletionAdapter.provideCompletionItems` after the
worker call: `wordRange` is the editor range of the word at the
request position, `snippetRule` the injected
`CompletionItemInsertTextRule.InsertAsSnippet` value.  A null/undefined
analyzer result resolves to no result (`if (!info) return`). -/
def provideCompletionItemsStep (wordRange : Monaco.Range) (kinds : ItemKinds)
    (snippetRule : Int) :
    Option CssService.CompletionList → Option MCompletionList
  | none => none
  | some info =>
    some
      { isIncomplete := info.isIncomplete
        suggestions := info.items.map fun entry =>
          let item : MCompletionItem :=
            { label := entry.label
              insertText := jsOrElse entry.insertText entry.label
              sortText := entry.sortText
              filterText := entry.filterText
              documentation := entry.documentation
              detail := entry.detail
              range := .single wordRange
              kind := toCompletionItemKind entry.kind kinds
              insertTextRules := none
              additionalTextEdits := none }
          let item :=
            match entry.textEdit with
            | some (.insertReplace ins rep newText) =>
              { item with
                  range := .insertReplace (toRange ins) (toRange rep)
                  insertText := newText }
            | some (.edit r newText) =>
              { item with range := .single (toRange r), insertText := newText }
            | none => item
          let item :=
            match entry.additionalTextEdits with
            | some edits => { item with additionalTextEdits := some (edits.map toTextEdit) }
            | none => item
          if entry.insertTextFormat = some 2 then
            { item with insertTextRules := some snippetRule }
          else item }

/-- A host-editor `IMarkdownString`. -/
structure IMarkdownString where
  value : String
deriving DecidableEq, Repr

/-- The character class of the `plaintext` escaping regex in
`toMarkdownString`: backslash, backtick, `*`, `_`, braces, brackets,
parens, `#`, `+`, `-`, `.`, `!`. -/
def markdownEscapeSet : List Char :=
  ['\\', '\x60', '*', '_', '\x7b', '\x7d', '[', ']', '(', ')', '#', '+', '-', '.', '!']

/-- One step of `value.replace(regex, backslash-dollar-amp)`. -/
def escapeMarkdownChar (c : Char) : List Char :=
  if c ∈ markdownEscapeSet then ['\\', c] else [c]

/-- The whole global replace. -/
def escapeMarkdown (s : String) : String :=
  ⟨(s.data.map escapeMarkdownChar).flatten⟩

/-- `toMarkdownString`: a plain string passes through, `MarkupContent`
of kind `plaintext` is escaped, other markup passes through, and a
language-tagged `MarkedString` becomes a fenced code block. -/
def toMarkdownString : CssService.HoverEntry → IMarkdownString
  | .marked (.plain entry) => { value := entry }
  | .markup kind value =>
    if kind = "plaintext" then { value := escapeMarkdown value }
    else { value := value }
  | .marked (.code language value) =>
    { value := "\x60\x60\x60" ++ language ++ "\n" ++ value ++ "\n\x60\x60\x60\n" }

/-- `toMarkedStringArray`, including its `if (!contents) return void 0`
guard. -/
def toMarkedStringArray :
    Option CssService.HoverContents → Option (List IMarkdownString)
  | none => none
  | some (.array contents) =>
    some (contents.map fun m => toMarkdownString (.marked m))
  | some (.single entry) => some [toMarkdownString entry]

/-- A host-editor hover result. -/
structure MHover where
  range : Option Monaco.Range
  contents : Option (List IMarkdownString)
deriving DecidableEq, Repr

/-- The body of `HoverAdapter.provideHover` after the worker call. -/
def provideHoverStep : Option CssService.Hover → Option MHover
  | none => none
  | some info =>
    some { range := toRangeOpt info.range
           contents := toMarkedStringArray info.contents }

/-- The injected `languages.DocumentHighlightKind` values. -/
structure HighlightKinds where
  Read : Int
  Write : Int
  Text : Int
deriving DecidableEq, Repr

/-- `toDocumentHighlightKind`: switch over the LSP codes with `Text` as
the default branch (also for an absent kind). -/
def toDocumentHighlightKind (kind : Option Int) (ks : HighlightKinds) : Int :=
  match kind with
  | some k =>
    if k = 2 then ks.Read
    else if k = 3 then ks.Write
    else if k = 1 then ks.Text
    else ks.Text
  | none => ks.Text

structure MDocumentHighlight where
  range : Monaco.Range
  kind : Int
deriving DecidableEq, Repr

/-- The body of `DocumentHighlightAdapter.provideDocumentHighlights`
after the worker call. -/
def provideDocumentHighlightsStep (ks : HighlightKinds) :
    Option (List CssService.DocumentHighlight) → Option (List MDocumentHighlight)
  | none => none
  | some entries =>
    some (entries.map fun entry =>
      { range := toRange entry.range
        kind := toDocumentHighlightKind entry.kind ks })

/-- A host-editor location; `editor.Uri.parse` is modelled as keeping
the uri string itself. -/
structure MLocation where
  uri : String
  range : Monaco.Range
deriving DecidableEq, Repr

/-- `toLocation`. -/
def toLocation (location : CssService.Location) : MLocation :=
  { uri := location.uri, range := toRange location.range }

/-- The body of `DefinitionAdapter.provideDefinition` after the worker
call: a present result is wrapped in a one-element array. -/
def provideDefinitionStep : Option CssService.Location → Option (List MLocation)
  | none => none
  | some definition => some [toLocation definition]

/-- The body of `ReferenceAdapter.provideReferences` after the worker
call. -/
def provideReferencesStep :
    Option (List CssService.Location) → Option (List MLocation)
  | none => none
  | some entries => some (entries.map toLocation)

/-- A host-editor `WorkspaceTextEdit` (`{resource, edit: {range, text}}`). -/
structure MWorkspaceTextEdit where
  resource : String
  edit : ISingleEditOperation
deriving DecidableEq, Repr

structure MWorkspaceEdit where
  edits : List MWorkspaceTextEdit
deriving DecidableEq, Repr

/-- `toWorkspaceEdit`: `if (!edit || !edit.changes) return void 0`,
then one `WorkspaceTextEdit` per text edit per changed uri. -/
def toWorkspaceEdit : Option CssService.WorkspaceEdit → Option MWorkspaceEdit
  | none => none
  | some edit =>
    match edit.changes with
    | none => none
    | some changes =>
      some
        { edits :=
            changes.flatMap fun uriEdits =>
              uriEdits.2.map fun e =>
                { resource := uriEdits.1
                  edit := { range := toRange e.range, text := e.newText } } }

/-- The body of `RenameAdapter.provideRenameEdits` after the worker
call (it is exactly `toWorkspaceEdit`). -/
def provideRenameEditsStep (edit : Option CssService.WorkspaceEdit) :
    Option MWorkspaceEdit :=
  toWorkspaceEdit edit

/-- The injected `languages.SymbolKind` record of host-editor values. -/
structure MSymbolKinds where
  Array : Int
  Module : Int
  Namespace : Int
  Package : Int
  Class : Int
  Method : Int
  Property : Int
  Field : Int
  Constructor : Int
  Enum : Int
  Interface : Int
  Function : Int
  Variable : Int
  Constant : Int
  String : Int
  Number : Int
  Boolean : Int
deriving DecidableEq, Repr

/-- `toSymbolKind`: switch over the LSP `SymbolKind` codes (note the
source maps `File` to `mKind.Array`), defaulting to `Function`. -/
def toSymbolKind (kind : Int) (mKind : MSymbolKinds) : Int :=
  if kind = 1 then mKind.Array
  else if kind = 2 then mKind.Module
  else if kind = 3 then mKind.Namespace
  else if kind = 4 then mKind.Package
  else if kind = 5 then mKind.Class
  else if kind = 6 then mKind.Method
  else if kind = 7 then mKind.Property
  else if kind = 8 then mKind.Field
  else if kind = 9 then mKind.Constructor
  else if kind = 10 then mKind.Enum
  else if kind = 11 then mKind.Interface
  else if kind = 12 then mKind.Function
  else if kind = 13 then mKind.Variable
  else if kind = 14 then mKind.Constant
  else if kind = 15 then mKind.String
  else if kind = 16 then mKind.Number
  else if kind = 17 then mKind.Boolean
  else if kind = 18 then mKind.Array
  else mKind.Function

/-- A host-editor `DocumentSymbol` as the adapter builds it. -/
structure MDocumentSymbol where
  name : String
  detail : String
  containerName : Option String
  kind : Int
  tags : List Int
  range : Monaco.Range
  selectionRange : Monaco.Range
deriving DecidableEq, Repr

/-- The body of `DocumentSymbolAdapter.provideDocumentSymbols` after
the worker call: both `range` and `selectionRange` are converted from
the same `item.location.range`, `detail` is the empty string and
`tags` the empty list. -/
def provideDocumentSymbolsStep (mKind : MSymbolKinds) :
    Option (List CssService.SymbolInformation) → Option (List MDocumentSymbol)
  | none => none
  | some items =>
    some (items.map fun item =>
      { name := item.name
        detail := ""
        containerName := item.containerName
        kind := toSymbolKind item.kind mKind
        tags := []
        range := toRange item.location.range
        selectionRange := toRange item.location.range })

structure MColorInformation where
  color : CssService.Color
  range : Monaco.Range
deriving DecidableEq, Repr

/-- The body of `DocumentColorAdapter.provideDocumentColors` after the
worker call. -/
def provideDocumentColorsStep :
    Option (List CssService.ColorInformation) → Option (List MColorInformation)
  | none => none
  | some infos =>
    some (infos.map fun item =>
      { color := item.color, range := toRange item.range })

structure MColorPresentation where
  label : String
  textEdit : Option ISingleEditOperation
  additionalTextEdits : Option (List ISingleEditOperation)
deriving DecidableEq, Repr

/-- The body of `DocumentColorAdapter.provideColorPresentations` after
the worker call (the two `if (presentation. ...)` guards are the
`Option.map`s). -/
def provideColorPresentationsStep :
    Option (List CssService.ColorPresentation) → Option (List MColorPresentation)
  | none => none
  | some presentations =>
    some (presentations.map fun presentation =>
      { label := presentation.label
        textEdit := presentation.textEdit.map toTextEdit
        additionalTextEdits :=
          presentation.additionalTextEdits.map fun edits => edits.map toTextEdit })

/-- The injected `languages.FoldingRangeKind` values. -/
structure FoldingKinds where
  Comment : Int
  Imports : Int
  Region : Int
deriving DecidableEq, Repr

/-- `toFoldingRangeKind`: switch over the LSP kind strings; the switch
has no default, so an unknown kind yields undefined. -/
def toFoldingRangeKind (kind : String) (ks : FoldingKinds) : Option Int :=
  if kind = "comment" then some ks.Comment
  else if kind = "imports" then some ks.Imports
  else if kind = "region" then some ks.Region
  else none

/-- A host-editor folding range; `kind` set to undefined is identified
with an absent `kind`. -/
structure MFoldingRange where
  start : Int
  «end» : Int
  kind : Option Int
deriving DecidableEq, Repr

/-- The body of `FoldingRangeAdapter.provideFoldingRanges` after the
worker call: every analyzer (wrapped-space, zero-based) line number is
converted to the editor's 1-based convention by adding one; no wrapper
offset is subtracted and no range is filtered out. -/
def provideFoldingRangesStep (ks : FoldingKinds) :
    Option (List CssService.FoldingRange) → Option (List MFoldingRange)
  | none => none
  | some ranges =>
    some (ranges.map fun range =>
      { start := range.startLine + 1
        «end» := range.endLine + 1
        kind := range.kind.bind fun k => toFoldingRangeKind k ks })

structure MSelectionRange where
  range : Monaco.Range
deriving DecidableEq, Repr

/-- The `while (selectionRange)` loop of
`SelectionRangeAdapter.provideSelectionRanges`: collect the range and
walk to the parent. -/
def collectSelectionRanges : CssService.SelectionRange → List MSelectionRange
  | .mk range none => [{ range := toRange range }]
  | .mk range (some parent) =>
    { range := toRange range } :: collectSelectionRanges parent

/-- The body of `SelectionRangeAdapter.provideSelectionRanges` after
the worker call. -/
def provideSelectionRangesStep :
    Option (List CssService.SelectionRange) → Option (List (List MSelectionRange))
  | none => none
  | some selectionRanges => some (selectionRanges.map collectSelectionRanges)

/-! ## Helper lemmas on line splitting -/

theorem splitLines_ne_nil (cs : List Char) : splitLines cs ≠ [] := by
  induction cs with
  | nil => simp [splitLines]
  | cons c rest ih =>
    simp only [splitLines]
    split
    · simp
    · cases h : splitLines rest with
      | nil => simp
      | cons l ls => simp

theorem cons_headI_tail {α : Type} [Inhabited α] {l : List α} (h : l ≠ []) :
    l.headI :: l.tail = l := by
  cases l with
  | nil => exact absurd rfl h
  | cons a l' => rfl

theorem splitLines_cons_newline (rest : List Char) :
    splitLines ('\n' :: rest) = [] :: splitLines rest := by
  simp [splitLines]

theorem splitLines_cons_other {c : Char} (rest : List Char) (hc : c ≠ '\n') :
    splitLines (c :: rest) =
      (c :: (splitLines rest).headI) :: (splitLines rest).tail := by
  simp only [splitLines, if_neg hc]
  cases h : splitLines rest with
  | nil => exact absurd h (splitLines_ne_nil rest)
  | cons l ls => simp [List.headI]

theorem splitLines_append_no_newline (a b : List Char) (ha : '\n' ∉ a) :
    splitLines (a ++ b) = (a ++ (splitLines b).headI) :: (splitLines b).tail := by
  induction a with
  | nil => simpa using (cons_headI_tail (splitLines_ne_nil b)).symm
  | cons c a' ih =>
    have hc : c ≠ '\n' := fun hcn => ha (hcn ▸ List.mem_cons_self c a')
    have ha' : '\n' ∉ a' := fun hmem => ha (List.mem_cons_of_mem c hmem)
    rw [List.cons_append, splitLines_cons_other (a' ++ b) hc, ih ha']
    simp [List.headI]

theorem splitLines_no_newline (a : List Char) (ha : '\n' ∉ a) :
    splitLines a = [a] := by
  have h := splitLines_append_no_newline a [] ha
  simpa [splitLines] using h

theorem splitLines_append_newline (a b : List Char) :
    splitLines (a ++ '\n' :: b) = splitLines a ++ splitLines b := by
  induction a with
  | nil => simp [splitLines_cons_newline, splitLines]
  | cons c a' ih =>
    by_cases hc : c = '\n'
    · subst hc
      rw [List.cons_append, splitLines_cons_newline, splitLines_cons_newline, ih]
      rfl
    · rw [List.cons_append, splitLines_cons_other _ hc, splitLines_cons_other _ hc, ih]
      cases h : splitLines a' with
      | nil => exact absurd h (splitLines_ne_nil a')
      | cons l ls => simp [List.headI]

theorem string_data_append (a b : String) : (a ++ b).data = a.data ++ b.data := by
  cases a
  cases b
  rfl

/-- The line structure of a wrapped document: one synthetic first line,
then the raw text's own lines — the first of them indented by the tail
of the opening string — then one synthetic last line. -/
theorem wrapValue_lines (t : String) :
    splitLines (CSSInJSWorker.wrapValue t).data =
      (".this-element \x7b").data
        :: (("\t\t ").data ++ (splitLines t.data).headI)
        :: ((splitLines t.data).tail ++ [("\t\t\x7d").data]) := by
  have hdata : (CSSInJSWorker.wrapValue t).data =
      (".this-element \x7b").data ++
        '\n' :: (("\t\t ").data ++ (t.data ++ '\n' :: ("\t\t\x7d").data)) := by
    show ((wrapOpen ++ t) ++ wrapClose).data = _
    rw [string_data_append, string_data_append]
    have hopen : wrapOpen.data =
        (".this-element \x7b").data ++ '\n' :: ("\t\t ").data := by decide
    have hclose : wrapClose.data = '\n' :: ("\t\t\x7d").data := by decide
    rw [hopen, hclose]
    simp [List.append_assoc]
  rw [hdata, splitLines_append_newline,
    splitLines_no_newline (".this-element \x7b").data (by decide),
    splitLines_append_no_newline _ _ (by decide),
    splitLines_append_newline,
    splitLines_no_newline ("\t\t\x7d").data (by decide)]
  cases h : splitLines t.data with
  | nil => exact absurd h (splitLines_ne_nil t.data)
  | cons l ls => simp [List.headI]

/-! ## Claim theorems -/

/-- C1: the diagnostics path does NOT subtract the wrapper's one-line
offset.  For the raw input `background: red;\n\ndiv {\n color: blue;\n}`,
wrapped-space line 3 of the wrapped document holds `div {`, which sits
at caller-space line 2; yet `toDiagnostics` turns an analyzer
diagnostic at wrapped line 3 into a marker at editor line 3 + 1 = 4
(caller-space line 3), not at editor line 2 + 1 = 3 as the claim's
offset law demands.  This exhibits the code bug behind claim C1. -/
theorem claim_C1 :
    (splitLines (CSSInJSWorker.wrapValue
        ("background: red;\n\ndiv \x7b\n color: blue;\n\x7d")).data)[3]? =
      some (("div \x7b").data) ∧
    (splitLines ("background: red;\n\ndiv \x7b\n color: blue;\n\x7d" :
        String).data)[2]? =
      some (("div \x7b").data) ∧
    (toDiagnostics
        { range :=
            { start := { line := 3, character := 0 }
              «end» := { line := 3, character := 5 } }
          severity := some 1
          code := none
          message := "unexpected"
          source := some ("scss") }
        { Error := 8, Warning := 4, Info := 2, Hint := 1 }).startLineNumber = 4 ∧
    (toDiagnostics
        { range :=
            { start := { line := 3, character := 0 }
              «end» := { line := 3, character := 5 } }
          severity := some 1
          code := none
          message := "unexpected"
          source := some ("scss") }
        { Error := 8, Warning := 4, Info := 2, Hint := 1 }).startLineNumber ≠ 2 + 1 := by
  refine ⟨by decide, by decide, by decide, by decide⟩

/-- C2: forward-mapping a caller position (`fromPosition` then the
worker's `mapPos`) and backward-mapping the result (`mapRange` then
`toRange`) is the identity on both the line and the column: the
1-based line passes through untouched and the column is decremented
then incremented. -/
theorem claim_C2 (p : Monaco.Position) :
    toRange (CSSInJSWorker.mapRange
        { start := CSSInJSWorker.mapPos (fromPosition p)
          «end» := CSSInJSWorker.mapPos (fromPosition p) }) =
      { startLineNumber := p.lineNumber
        startColumn := p.column
        endLineNumber := p.lineNumber
        endColumn := p.column } := by
  simp [toRange, CSSInJSWorker.mapRange, CSSInJSWorker.mapPos, fromPosition]

/-- C3: the position handed to the underlying analyzer for a caller
position with 1-based line `l` and column `c` is exactly
`{line: l, character: c - 1}` — `fromPosition` leaves the line 1-based
and zero-bases only the column — and the worker's `mapPos` and
`mapRange` are exact identities, so no wrap shift and no first-line
column offset is ever applied on the forward path. -/
theorem claim_C3 :
    (∀ p : Monaco.Position,
        CSSInJSWorker.mapPos (fromPosition p) =
          { line := p.lineNumber, character := p.column - 1 }) ∧
    (∀ q : CssService.Position, CSSInJSWorker.mapPos q = q) ∧
    (∀ r : CssService.Range, CSSInJSWorker.mapRange r = r) :=
  ⟨fun _ => rfl, fun _ => rfl, fun _ => rfl⟩

/-- C4: the wrapped document is the constant opening string, the raw
text character-for-character (recoverable by dropping the prefix and
taking the raw length), and the constant closing string; the
transformation is a pure function of the raw text (hence
deterministic), applied without inspecting the input, and the
`|| ''` fallback never alters a model's value. -/
theorem claim_C4 (t : String) :
    CSSInJSWorker.wrapValue t = wrapOpen ++ t ++ wrapClose ∧
    (∀ m : CSSInJSWorker.Model, CSSInJSWorker.modelText (some m) = m.value) ∧
    ((CSSInJSWorker.wrapValue t).data.drop wrapOpen.data.length).take t.data.length
      = t.data := by
  refine ⟨rfl, fun m => ?_, ?_⟩
  · by_cases h : m.value = "" <;> simp [CSSInJSWorker.modelText, h]
  · show (((wrapOpen ++ t) ++ wrapClose).data.drop wrapOpen.data.length).take
        t.data.length = t.data
    rw [string_data_append, string_data_append, List.append_assoc,
      List.drop_left, List.take_left]

/-- C5: the opening string of the wrapper contains exactly one newline
before the content begins, so caller-space line `L` of the raw text
appears at wrapped-space line `L + 1` — verbatim for `L ≥ 1`, and
prefixed by the constant indentation `"\t\t "` for `L = 0`. -/
theorem claim_C5 (t : String) (L : Nat) (lineL : List Char)
    (h : (splitLines t.data)[L]? = some lineL) :
    wrapOpen.data.count '\n' = 1 ∧
    (splitLines (CSSInJSWorker.wrapValue t).data)[L + 1]? =
      some ((if L = 0 then ("\t\t ").data else []) ++ lineL) := by
  refine ⟨by decide, ?_⟩
  rw [wrapValue_lines]
  cases hs : splitLines t.data with
  | nil => exact absurd hs (splitLines_ne_nil t.data)
  | cons m ms =>
    rw [hs] at h
    cases L with
    | zero =>
      simp only [List.getElem?_cons_zero, Option.some.injEq] at h
      subst h
      simp [List.headI]
    | succ n =>
      simp only [List.getElem?_cons_succ] at h
      have hn : n < ms.length := (List.getElem?_eq_some_iff.mp h).1
      simp only [List.headI, List.tail_cons, if_neg (Nat.succ_ne_zero n),
        List.nil_append]
      rw [List.getElem?_cons_succ, List.getElem?_cons_succ,
        List.getElem?_append_left hn]
      exact h

/-- Witness for C5 at the raw text `a\nb`, line 1. -/
theorem claim_C5_witness :
    (splitLines ("a\nb" : String).data)[1]? = some (['b'] : List Char) ∧
    (wrapOpen.data.count '\n' = 1 ∧
      (splitLines (CSSInJSWorker.wrapValue ("a\nb")).data)[1 + 1]? =
        some ((if (1 : Nat) = 0 then ("\t\t ").data else []) ++
          (['b'] : List Char))) :=
  ⟨by decide, claim_C5 ("a\nb") 1 ['b'] (by decide)⟩

/-- C6: the folding-range path does NOT shift lines back by the
wrapper's offset and does NOT suppress the synthetic wrapper block.
With the analyzer reporting the wrapper's own block (wrapped lines
0–5) and a nested block (wrapped lines 3–4, caller lines 2–3),
`provideFoldingRanges` exposes both, each at its wrapped line plus one
— rather than the single nested range at caller lines `{3, 4}`
(1-based) with the wrapper block dropped, as the claim's line law
demands.  This exhibits the code bug behind claim C6. -/
theorem claim_C6 :
    provideFoldingRangesStep { Comment := 1, Imports := 2, Region := 3 }
        (some [{ startLine := 0, endLine := 5, kind := none },
               { startLine := 3, endLine := 4, kind := none }]) =
      some [{ start := 1, «end» := 6, kind := none },
            { start := 4, «end» := 5, kind := none }] ∧
    provideFoldingRangesStep { Comment := 1, Imports := 2, Region := 3 }
        (some [{ startLine := 0, endLine := 5, kind := none },
               { startLine := 3, endLine := 4, kind := none }]) ≠
      some [{ start := 3, «end» := 4, kind := none }] := by
  exact ⟨by decide, by decide⟩

/-- C7: for every feature operation, an absent analyzer result (null
or undefined) makes the adapter resolve to no result (`undefined`):
each result-processing step is a total function sending `none` to
`none`, never an error. -/
theorem claim_C7 :
    (∀ (wordRange : Monaco.Range) (kinds : ItemKinds) (snippetRule : Int),
        provideCompletionItemsStep wordRange kinds snippetRule none = none) ∧
    provideHoverStep none = none ∧
    (∀ ks : HighlightKinds, provideDocumentHighlightsStep ks none = none) ∧
    provideDefinitionStep none = none ∧
    provideReferencesStep none = none ∧
    provideRenameEditsStep none = none ∧
    (∀ mKind : MSymbolKinds, provideDocumentSymbolsStep mKind none = none) ∧
    provideDocumentColorsStep none = none ∧
    provideColorPresentationsStep none = none ∧
    (∀ fk : FoldingKinds, provideFoldingRangesStep fk none = none) ∧
    provideSelectionRangesStep none = none :=
  ⟨fun _ _ _ => rfl, rfl, fun _ => rfl, rfl, rfl, rfl, fun _ => rfl, rfl, rfl,
    fun _ => rfl, rfl⟩

/-- C8: with a missing model, `doValidation` does NOT return an empty
diagnostic list: `_getTextDocument` reads `model.getVersionId()`
without an optional chain, so the call rejects with a `TypeError`
instead (the dead `if (document)` guard shows the intended `[]`).
The second half of the claim does hold: `_doValidate` skips marker
publication when the model is gone or its mode id no longer matches. -/
theorem claim_C8 :
    (∀ (validate : CSSInJSWorker.TextDocument → List CssService.Diagnostic)
        (uri : String),
        CSSInJSWorker.doValidation validate uri none =
          Except.error CSSInJSWorker.JsError.typeError ∧
        CSSInJSWorker.doValidation validate uri none ≠ Except.ok []) ∧
    (∀ (languageId : String) (markers : List IMarkerData),
        publishMarkers languageId markers none = none) ∧
    (∀ (languageId : String) (markers : List IMarkerData)
        (m : CSSInJSWorker.Model),
        publishMarkers languageId markers (some m) =
          if m.modeId = languageId then some markers else none) :=
  ⟨fun _ _ => ⟨rfl, by simp [CSSInJSWorker.doValidation, CSSInJSWorker._getTextDocument]⟩,
    fun _ _ => rfl, fun _ _ _ => rfl⟩

/-- Helper for C9: with a timer pending 500 ms after `t` and all
remaining events within the quiet period of their predecessor, no
intermediate timer fires and the final timer fires 500 ms after the
last event. -/
theorem debounceGo_of_chain (t : Nat) (ts : List Nat)
    (h : List.Chain' (fun a b => a < b ∧ b < a + validationDelay) (t :: ts)) :
    debounceGo (some (t + validationDelay)) ts =
      [(t :: ts).getLast (List.cons_ne_nil t ts) + validationDelay] := by
  induction ts generalizing t with
  | nil => simp [debounceGo, List.getLast]
  | cons u ts' ih =>
    rw [List.chain'_cons] at h
    obtain ⟨⟨h1, h2⟩, h3⟩ := h
    show (debounceStep (some (t + validationDelay)) u).1 ++
        debounceGo (debounceStep (some (t + validationDelay)) u).2 ts' = _
    simp only [debounceStep, if_neg (by omega : ¬ t + validationDelay < u)]
    rw [List.nil_append, ih u h3]
    rw [List.getLast_cons (List.cons_ne_nil u ts')]

/-- C9: successive content-change events each within 500 ms of the
previous one produce exactly one validation, 500 ms after the last
event — every event cancels the previously scheduled timer — and the
delay is the fixed constant 500 with no override. -/
theorem claim_C9 (t : Nat) (ts : List Nat)
    (h : List.Chain' (fun a b => a < b ∧ b < a + validationDelay) (t :: ts)) :
    validationDelay = 500 ∧
    debounceRun (t :: ts) =
      [(t :: ts).getLast (List.cons_ne_nil t ts) + validationDelay] := by
  refine ⟨rfl, ?_⟩
  show (debounceStep none t).1 ++ debounceGo (debounceStep none t).2 ts = _
  simp only [debounceStep, List.nil_append]
  exact debounceGo_of_chain t ts h

/-- Witness for C9 at the event times 0, 100, 200: one validation at
time 700. -/
theorem claim_C9_witness :
    List.Chain' (fun a b => a < b ∧ b < a + validationDelay) [0, 100, 200] ∧
    (validationDelay = 500 ∧
      debounceRun [0, 100, 200] =
        [[0, 100, 200].getLast (List.cons_ne_nil 0 [100, 200]) +
          validationDelay]) :=
  ⟨by simp [List.chain'_cons, validationDelay], claim_C9 0 [100, 200]
    (by simp [List.chain'_cons, validationDelay])⟩

/-- C10: every document symbol produced by `provideDocumentSymbols`
has `selectionRange` equal to `range` (both converted from the same
`item.location.range`), an empty `detail` string and an empty `tags`
list. -/
theorem claim_C10 (mKind : MSymbolKinds)
    (items : List CssService.SymbolInformation) (s : MDocumentSymbol)
    (hs : s ∈ (provideDocumentSymbolsStep mKind (some items)).getD []) :
    s.selectionRange = s.range ∧ s.detail = "" ∧ s.tags = [] := by
  simp only [provideDocumentSymbolsStep, Option.getD_some, List.mem_map] at hs
  obtain ⟨item, _, rfl⟩ := hs
  exact ⟨rfl, rfl, rfl⟩

/-- Witness for C10 at a concrete symbol list. -/
theorem claim_C10_witness :
    (⟨"sel", "", none, 5, [], ⟨1, 1, 2, 2⟩, ⟨1, 1, 2, 2⟩⟩ : MDocumentSymbol) ∈
      (provideDocumentSymbolsStep
          ⟨1, 2, 3, 4, 5, 6, 7, 8, 9, 10, 11, 12, 13, 14, 15, 16, 17⟩
          (some [⟨"sel", 5, none, ⟨"file.css", ⟨⟨1, 0⟩, ⟨2, 1⟩⟩⟩⟩])).getD [] ∧
    ((⟨"sel", "", none, 5, [], ⟨1, 1, 2, 2⟩, ⟨1, 1, 2, 2⟩⟩ :
        MDocumentSymbol).selectionRange =
      (⟨"sel", "", none, 5, [], ⟨1, 1, 2, 2⟩, ⟨1, 1, 2, 2⟩⟩ :
        MDocumentSymbol).range ∧
      (⟨"sel", "", none, 5, [], ⟨1, 1, 2, 2⟩, ⟨1, 1, 2, 2⟩⟩ :
        MDocumentSymbol).detail = "" ∧
      (⟨"sel", "", none, 5, [], ⟨1, 1, 2, 2⟩, ⟨1, 1, 2, 2⟩⟩ :
        MDocumentSymbol).tags = []) :=
  ⟨by decide,
    claim_C10 ⟨1, 2, 3, 4, 5, 6, 7, 8, 9, 10, 11, 12, 13, 14, 15, 16, 17⟩
      [⟨"sel", 5, none, ⟨"file.css", ⟨⟨1, 0⟩, ⟨2, 1⟩⟩⟩⟩] _ (by decide)⟩
